import Mathlib

/-!
# Solar-system bodies: `Star`, `Planet`, `LightPlanet`

A shallow embedding of `src/star.hpp` and `src/stars.cpp`.

* The code is written once, over a scalar type `F` for `GLfloat` and a scalar type `D` for
  `double`, with the operations the source uses (`+`, `*`, `/`, `<`, the conversions from `int`
  and `long`, the widening `GLfloat → double` and the narrowing `double → GLfloat`).
* `GLfloat` and `GLdouble` are the IEEE 754 formats binary32 and binary64: every operation rounds
  its exact result to nearest, ties to even, overflows to an infinity and propagates NaN.  This
  is the arithmetic of the code.  The two zeros are one value.
* A linearly ordered field is a second instance of the same operations, without rounding: it
  gives the exact reading of a statement.
* `long timeSpan` is an `Int`.
* An object pointer `Star *` is an address (`Nat`), the null pointer is `none`, and the objects
  live in a store `Heap F` that maps every address to an object.
* A method that calls OpenGL returns the list of calls it makes, in order (`GLCmd`); an argument
  of type `GLdouble` that the code fills with a `GLfloat` is listed as that `GLfloat`, which the
  widening represents exactly.
* `cos` and `sin` of `<cmath>` are parameters (`CMath`).
-/

namespace SolarSystem

/-- The OpenGL enumerants that occur in `stars.cpp`. -/
inductive GLenum
  | GL_LINE_SMOOTH
  | GL_BLEND
  | GL_LINES
  | GL_FRONT
  | GL_AMBIENT
  | GL_DIFFUSE
  | GL_SPECULAR
  | GL_EMISSION
  | GL_SHININESS
  | GL_LIGHT0
  | GL_POSITION
  deriving DecidableEq, Repr

/-- One call of the OpenGL / GLUT interface, with its arguments. -/
inductive GLCmd (F : Type)
  | glEnable (cap : GLenum)
  | glPushMatrix
  | glPopMatrix
  | glRotatef (angle x y z : F)
  | glRotated (angle x y z : F)
  | glTranslatef (x y z : F)
  | glBegin (mode : GLenum)
  | glVertex2f (x y : F)
  | glEnd
  | glColor3f (red green blue : F)
  | glutSolidSphere (radius : F) (slices stackCount : Int)
  | glMaterialfv (face pname : GLenum) (params : Fin 4 → F)
  | glMaterialf (face pname : GLenum) (param : F)
  | glLightfv (light pname : GLenum) (params : Fin 4 → F)

/-- The functions of `<cmath>` that `stars.cpp` calls, on `double`. -/
structure CMath (D : Type) where
  cos : D → D
  sin : D → D

/-- The dynamic type of an object: which `draw()` its virtual table holds. -/
inductive Variant
  | Star
  | Planet
  | LightPlanet
  deriving DecidableEq, Repr

/-- An address of an object; `Star * parentStar` is an `Option Addr`, `none` being null. -/
abbrev Addr := Nat

/-- The data members of `class Star` (`star.hpp`), with the dynamic type of the object. -/
structure Star (F : Type) where
  vptr : Variant
  radius : F
  speed : F
  selfSpeed : F
  distance : F
  rgbaColor : Fin 4 → F
  parentStar : Option Addr
  alphaSelf : F
  alpha : F

/-- The objects in memory: what each address holds. -/
abbrev Heap (F : Type) := Addr → Star F

/-- The conversions between `GLfloat` (`F`) and `double` (`D`). -/
class FloatConv (F D : Type) where
  widen : F → D
  narrow : D → F

section FloatingPoint

/-- A value of an IEEE 754 binary floating-point format: a finite number (the two zeros are one
value here), an infinity with its sign, or a NaN. -/
inductive FP
  | fin (q : ℚ)
  | inf (negative : Bool)
  | nan
  deriving DecidableEq

/-- A binary floating-point format: the precision in bits and the exponents of the smallest and
of the largest normal numbers. -/
structure Format where
  prec : Nat
  emin : Int
  emax : Int

/-- IEEE 754 binary32, the format of `GLfloat`. -/
def binary32 : Format :=
  { prec := 24
    emin := -126
    emax := 127 }

/-- IEEE 754 binary64, the format of `double` and `GLdouble`. -/
def binary64 : Format :=
  { prec := 53
    emin := -1022
    emax := 1023 }

/-- The integer nearest to `x`, the even one of the two when `x` is halfway between them. -/
def roundTiesEven (x : ℚ) : Int :=
  if x - ⌊x⌋ < 1 / 2 then ⌊x⌋
  else if 1 / 2 < x - ⌊x⌋ then ⌊x⌋ + 1
  else if ⌊x⌋ % 2 = 0 then ⌊x⌋ else ⌊x⌋ + 1

/-- The power `2 ^ e` of two, for an integer exponent. -/
def pow2 (e : Int) : ℚ :=
  if 0 ≤ e then ((2 ^ e.toNat : Nat) : ℚ) else 1 / ((2 ^ (-e).toNat : Nat) : ℚ)

/-- The binary logarithm of `n`, rounded down, by `fuel` halvings at most. -/
def log2Aux : Nat → Nat → Nat
  | 0, _ => 0
  | fuel + 1, n => if n < 2 then 0 else log2Aux fuel (n / 2) + 1

/-- The binary logarithm of `n`, rounded down (`0` for `n = 0`). -/
def log2 (n : Nat) : Nat := log2Aux n n

/-- The exponent `e` of a non-zero `q`: `2 ^ e ≤ |q| < 2 ^ (e + 1)`. -/
def exponent (q : ℚ) : Int :=
  if pow2 ((log2 q.num.natAbs : Int) - log2 q.den) ≤ |q| then
    (log2 q.num.natAbs : Int) - log2 q.den
  else (log2 q.num.natAbs : Int) - log2 q.den - 1

/-- The exponent of the unit in the last place of the format at `q` (that of the subnormal
numbers below the smallest normal number). -/
def Format.ulpExp (f : Format) (q : ℚ) : Int :=
  max (exponent q) f.emin - (f.prec - 1)

/-- Rounding to nearest, ties to even, of the exact result `q` of an operation: the multiple of
the unit in the last place nearest to `q`, or the infinity when that is beyond the largest
finite number of the format. -/
def Format.round (f : Format) (q : ℚ) : FP :=
  if q = 0 then FP.fin 0
  else if pow2 (f.emax + 1)
      ≤ |(roundTiesEven (q / pow2 (f.ulpExp q)) : ℚ) * pow2 (f.ulpExp q)| then
    FP.inf (decide (q < 0))
  else FP.fin ((roundTiesEven (q / pow2 (f.ulpExp q)) : ℚ) * pow2 (f.ulpExp q))

/-- IEEE 754 addition. -/
def FP.add (f : Format) : FP → FP → FP
  | FP.fin a, FP.fin b => f.round (a + b)
  | FP.fin _, FP.inf s => FP.inf s
  | FP.inf s, FP.fin _ => FP.inf s
  | FP.inf s, FP.inf t => if s = t then FP.inf s else FP.nan
  | _, _ => FP.nan

/-- IEEE 754 multiplication. -/
def FP.mul (f : Format) : FP → FP → FP
  | FP.fin a, FP.fin b => f.round (a * b)
  | FP.fin a, FP.inf s => if a = 0 then FP.nan else FP.inf (xor (decide (a < 0)) s)
  | FP.inf s, FP.fin b => if b = 0 then FP.nan else FP.inf (xor s (decide (b < 0)))
  | FP.inf s, FP.inf t => FP.inf (xor s t)
  | _, _ => FP.nan

/-- IEEE 754 division (a division of a non-zero number by zero gives the infinity of the sign
of the dividend, the zero counting as positive). -/
def FP.div (f : Format) : FP → FP → FP
  | FP.fin a, FP.fin b =>
    if b = 0 then (if a = 0 then FP.nan else FP.inf (decide (a < 0))) else f.round (a / b)
  | FP.fin _, FP.inf _ => FP.fin 0
  | FP.inf s, FP.fin b => FP.inf (xor s (decide (b < 0)))
  | _, _ => FP.nan

/-- IEEE 754 comparison `<`: false when an operand is a NaN. -/
def FP.lt : FP → FP → Bool
  | FP.fin a, FP.fin b => decide (a < b)
  | FP.fin _, FP.inf s => !s
  | FP.inf s, FP.fin _ => s
  | FP.inf s, FP.inf t => s && !t
  | _, _ => false

/-- IEEE 754 comparison `<=`: false when an operand is a NaN. -/
def FP.le : FP → FP → Bool
  | FP.fin a, FP.fin b => decide (a ≤ b)
  | FP.fin _, FP.inf s => !s
  | FP.inf s, FP.fin _ => s
  | FP.inf s, FP.inf t => s || !t
  | _, _ => false

/-- A number of the floating-point format `f`. -/
structure IEEE (f : Format) where
  val : FP
  deriving DecidableEq

/-- `GLfloat`, `float`: IEEE 754 binary32. -/
abbrev GLfloat := IEEE binary32

/-- `GLdouble`, `double`: IEEE 754 binary64. -/
abbrev GLdouble := IEEE binary64

/-- The number of the format nearest to `q`: the value of a literal, of a conversion from an
integer, of an exactly computed result. -/
def IEEE.ofRat (f : Format) (q : ℚ) : IEEE f := { val := f.round q }

instance (f : Format) : Zero (IEEE f) := ⟨{ val := FP.fin 0 }⟩

instance (f : Format) : One (IEEE f) := ⟨{ val := FP.fin 1 }⟩

instance (f : Format) : Add (IEEE f) := ⟨fun a b => { val := FP.add f a.val b.val }⟩

instance (f : Format) : Mul (IEEE f) := ⟨fun a b => { val := FP.mul f a.val b.val }⟩

instance (f : Format) : Div (IEEE f) := ⟨fun a b => { val := FP.div f a.val b.val }⟩

instance (f : Format) : LT (IEEE f) := ⟨fun a b => FP.lt a.val b.val = true⟩

instance (f : Format) : LE (IEEE f) := ⟨fun a b => FP.le a.val b.val = true⟩

instance (f : Format) : DecidableRel (fun a b : IEEE f => a < b) :=
  fun a b => inferInstanceAs (Decidable (FP.lt a.val b.val = true))

instance (f : Format) : DecidableRel (fun a b : IEEE f => a ≤ b) :=
  fun a b => inferInstanceAs (Decidable (FP.le a.val b.val = true))

instance (f : Format) : NatCast (IEEE f) := ⟨fun n => IEEE.ofRat f n⟩

instance (f : Format) : IntCast (IEEE f) := ⟨fun n => IEEE.ofRat f n⟩

/-- The conversions of the code: `GLfloat → double` is exact, `double → GLfloat` rounds. -/
instance : FloatConv GLfloat GLdouble where
  widen x := { val := x.val }
  narrow y :=
    match y.val with
    | FP.fin q => IEEE.ofRat binary32 q
    | v => { val := v }

/-- Exact arithmetic: the two scalar types are one field and the conversions change nothing. -/
instance (K : Type) [LinearOrderedField K] : FloatConv K K where
  widen x := x
  narrow y := y

end FloatingPoint

section Code

/-- `#define PI 3.1415926535`, a `double` literal. -/
def PI {D : Type} [NatCast D] [Div D] : D :=
  ((31415926535 : Nat) : D) / ((10000000000 : Nat) : D)

/-- `Star::Star(radius, distance, speed, selfSpeed, parent)` -/
def Star.ctor {F : Type} [Zero F] [One F] [Div F] [NatCast F] [LT F]
    [DecidableRel (fun a b : F => a < b)]
    (radius distance speed selfSpeed : F) (parent : Option Addr) : Star F :=
  { vptr := Variant.Star
    radius := radius
    selfSpeed := selfSpeed
    distance := distance
    parentStar := parent
    alpha := 0
    alphaSelf := 0
    rgbaColor := fun _ => 1
    speed := if speed > 0 then ((360 : Nat) : F) / speed else 0 }

/-- `Planet::Planet(radius, distance, speed, selfSpeed, parent, rgbColor)` -/
def Planet.ctor {F : Type} [Zero F] [One F] [Div F] [NatCast F] [LT F]
    [DecidableRel (fun a b : F => a < b)]
    (radius distance speed selfSpeed : F) (parent : Option Addr)
    (rgbColor : Fin 3 → F) : Star F :=
  { Star.ctor radius distance speed selfSpeed parent with
    vptr := Variant.Planet
    rgbaColor := ![rgbColor 0, rgbColor 1, rgbColor 2, 1] }

/-- `LightPlanet::LightPlanet(radius, distance, speed, selfSpeed, parent, rgbColor)` -/
def LightPlanet.ctor {F : Type} [Zero F] [One F] [Div F] [NatCast F] [LT F]
    [DecidableRel (fun a b : F => a < b)]
    (radius distance speed selfSpeed : F) (parent : Option Addr)
    (rgbColor : Fin 3 → F) : Star F :=
  { Planet.ctor radius distance speed selfSpeed parent rgbColor with
    vptr := Variant.LightPlanet }

/-- `Star::update(long timeSpan)`, on the members of `*this`. -/
def Star.update {F : Type} [Add F] [Mul F] [IntCast F] (s : Star F) (timeSpan : Int) : Star F :=
  { s with
    alpha := s.alpha + (timeSpan : F) * s.speed
    alphaSelf := s.alphaSelf + s.selfSpeed }

/-- The call `p->update(timeSpan)` on the object at address `this`. -/
def Heap.update {F : Type} [Add F] [Mul F] [IntCast F] (h : Heap F) (this : Addr)
    (timeSpan : Int) : Heap F :=
  fun a => if a = this then (h this).update timeSpan else h a

/-- The vertices of the loop `for (int i = 0; i < n; ++i) glVertex2f(...)` of `drawStar`: the
products are computed in `double` and narrowed to `GLfloat` by the call. -/
def Star.orbitVertices {F D : Type} [FloatConv F D] [Mul D] [Div D] [NatCast D]
    (m : CMath D) (s : Star F) (n : Nat) : List (GLCmd F) :=
  (List.range n).map fun (i : Nat) =>
    GLCmd.glVertex2f
      (FloatConv.narrow
        (FloatConv.widen s.distance * m.cos (((2 : Nat) : D) * PI * (i : D) / (n : D))))
      (FloatConv.narrow
        (FloatConv.widen s.distance * m.sin (((2 : Nat) : D) * PI * (i : D) / (n : D))))

/-- The block `if (parentStar != 0 && parentStar->distance > 0) { ... }` of `drawStar`. -/
def Star.parentOffset {F : Type} [Zero F] [One F] [LT F] [DecidableRel (fun a b : F => a < b)]
    (h : Heap F) (s : Star F) : List (GLCmd F) :=
  match s.parentStar with
  | none => []
  | some p =>
    if (h p).distance > 0 then
      [GLCmd.glRotatef (h p).alpha 0 0 1, GLCmd.glTranslatef (h p).distance 0 0]
    else []

/-- The block `glBegin(GL_LINES); for ... glVertex2f(...); glEnd();` of `drawStar`, `n = 1440`. -/
def Star.orbitPath {F D : Type} [FloatConv F D] [Mul D] [Div D] [NatCast D]
    (m : CMath D) (s : Star F) : List (GLCmd F) :=
  GLCmd.glBegin GLenum.GL_LINES :: (s.orbitVertices m 1440 ++ [GLCmd.glEnd])

/-- The calls of `drawStar` after `glEnd()`, `glPopMatrix()` not included. -/
def Star.placeSphere {F : Type} [Zero F] [One F] (s : Star F) : List (GLCmd F) :=
  [ GLCmd.glRotated s.alpha 0 0 1,
    GLCmd.glTranslatef s.distance 0 0,
    GLCmd.glRotatef s.alphaSelf 0 0 1,
    GLCmd.glColor3f (s.rgbaColor 0) (s.rgbaColor 1) (s.rgbaColor 2),
    GLCmd.glutSolidSphere s.radius 40 32 ]

/-- `Star::drawStar()` -/
def Star.drawStar {F D : Type} [Zero F] [One F] [LT F] [DecidableRel (fun a b : F => a < b)]
    [FloatConv F D] [Mul D] [Div D] [NatCast D]
    (m : CMath D) (h : Heap F) (s : Star F) : List (GLCmd F) :=
  [GLCmd.glEnable GLenum.GL_LINE_SMOOTH, GLCmd.glEnable GLenum.GL_BLEND, GLCmd.glPushMatrix]
    ++ s.parentOffset h ++ s.orbitPath m ++ s.placeSphere ++ [GLCmd.glPopMatrix]

/-- `Planet::drawPlanet()` -/
def Planet.drawPlanet {F : Type} [Zero F] [One F] [Div F] [NatCast F] (s : Star F) :
    List (GLCmd F) :=
  [ GLCmd.glMaterialfv GLenum.GL_FRONT GLenum.GL_AMBIENT ![0, 0, 1 / ((2 : Nat) : F), 1],
    GLCmd.glMaterialfv GLenum.GL_FRONT GLenum.GL_DIFFUSE ![0, 0, 1 / ((2 : Nat) : F), 1],
    GLCmd.glMaterialfv GLenum.GL_FRONT GLenum.GL_SPECULAR ![0, 0, 1, 1],
    GLCmd.glMaterialfv GLenum.GL_FRONT GLenum.GL_EMISSION
      ![s.rgbaColor 0, s.rgbaColor 1, s.rgbaColor 2, s.rgbaColor 3],
    GLCmd.glMaterialf GLenum.GL_FRONT GLenum.GL_SHININESS ((90 : Nat) : F) ]

/-- `LightPlanet::drawLight()` -/
def LightPlanet.drawLight {F : Type} [Zero F] [One F] : List (GLCmd F) :=
  [ GLCmd.glLightfv GLenum.GL_LIGHT0 GLenum.GL_POSITION ![0, 0, 0, 1],
    GLCmd.glLightfv GLenum.GL_LIGHT0 GLenum.GL_AMBIENT ![0, 0, 0, 1],
    GLCmd.glLightfv GLenum.GL_LIGHT0 GLenum.GL_DIFFUSE ![1, 1, 1, 1],
    GLCmd.glLightfv GLenum.GL_LIGHT0 GLenum.GL_SPECULAR ![1, 1, 1, 1] ]

/-- `Star::draw()`: `{ drawStar(); }` -/
def Star.draw {F D : Type} [Zero F] [One F] [LT F] [DecidableRel (fun a b : F => a < b)]
    [FloatConv F D] [Mul D] [Div D] [NatCast D]
    (m : CMath D) (h : Heap F) (s : Star F) : List (GLCmd F) :=
  s.drawStar m h

/-- `Planet::draw()`: `{ drawPlanet(); drawStar(); }` -/
def Planet.draw {F D : Type} [Zero F] [One F] [Div F] [NatCast F] [LT F]
    [DecidableRel (fun a b : F => a < b)] [FloatConv F D] [Mul D] [Div D] [NatCast D]
    (m : CMath D) (h : Heap F) (s : Star F) : List (GLCmd F) :=
  Planet.drawPlanet s ++ s.drawStar m h

/-- `LightPlanet::draw()`: `{ drawLight(); drawPlanet(); drawStar(); }` -/
def LightPlanet.draw {F D : Type} [Zero F] [One F] [Div F] [NatCast F] [LT F]
    [DecidableRel (fun a b : F => a < b)] [FloatConv F D] [Mul D] [Div D] [NatCast D]
    (m : CMath D) (h : Heap F) (s : Star F) : List (GLCmd F) :=
  LightPlanet.drawLight ++ Planet.drawPlanet s ++ s.drawStar m h

/-- The virtual call `p->draw()`: the `draw()` of the dynamic type of the object. -/
def draw {F D : Type} [Zero F] [One F] [Div F] [NatCast F] [LT F]
    [DecidableRel (fun a b : F => a < b)] [FloatConv F D] [Mul D] [Div D] [NatCast D]
    (m : CMath D) (h : Heap F) (s : Star F) : List (GLCmd F) :=
  match s.vptr with
  | Variant.Star => Star.draw m h s
  | Variant.Planet => Planet.draw m h s
  | Variant.LightPlanet => LightPlanet.draw m h s

/-- The composition of `draw()` in the words of the specification: light setup (if the body
emits light), then material setup (if the body is shaded), then the base geometry draw. -/
def drawByCapability {F : Type} (emitsLight shaded : Bool)
    (lightSetup materialSetup baseGeometry : List (GLCmd F)) : List (GLCmd F) :=
  (if emitsLight then lightSetup else []) ++ (if shaded then materialSetup else [])
    ++ baseGeometry

end Code

section OpenGL

variable {F : Type}

/-- Is the call a `glPushMatrix()`? -/
def GLCmd.isPush : GLCmd F → Bool
  | GLCmd.glPushMatrix => true
  | _ => false

/-- Is the call a `glPopMatrix()`? -/
def GLCmd.isPop : GLCmd F → Bool
  | GLCmd.glPopMatrix => true
  | _ => false

/-- Is the call a rotation or a translation of the current matrix? -/
def GLCmd.isTransform : GLCmd F → Bool
  | GLCmd.glRotatef _ _ _ _ => true
  | GLCmd.glRotated _ _ _ _ => true
  | GLCmd.glTranslatef _ _ _ => true
  | _ => false

/-- Is the call a light command (`glLightfv`)? -/
def GLCmd.isLight : GLCmd F → Bool
  | GLCmd.glLightfv _ _ _ => true
  | _ => false

/-- Is the call a material command (`glMaterialfv`, `glMaterialf`)? -/
def GLCmd.isMaterial : GLCmd F → Bool
  | GLCmd.glMaterialfv _ _ _ => true
  | GLCmd.glMaterialf _ _ _ => true
  | _ => false

/-- Is the call a `glVertex2f`? -/
def GLCmd.isVertex : GLCmd F → Bool
  | GLCmd.glVertex2f _ _ => true
  | _ => false

/-- A transformation that a call multiplies onto the current matrix. -/
inductive TOp (F : Type)
  | rotate (angle x y z : F)
  | translate (x y z : F)

/-- The part of the OpenGL state that the code acts on.  The current matrix is kept as the list
of the transformations multiplied onto it so far, in the order of the calls; `saved` is the
matrix stack below the current matrix; `drawn` lists the vertices and spheres issued so far, each
with the matrix in force when it was issued. -/
structure GLState (F : Type) where
  current : List (TOp F)
  saved : List (List (TOp F))
  drawn : List (List (TOp F) × GLCmd F)

/-- The effect of one call on the OpenGL state (OpenGL matrix-stack rules; the stack has no
depth limit, and `glPopMatrix` on an empty stack changes nothing). -/
def GLState.step (st : GLState F) : GLCmd F → GLState F
  | GLCmd.glPushMatrix => { st with saved := st.current :: st.saved }
  | GLCmd.glPopMatrix =>
    match st.saved with
    | [] => st
    | t :: ts => { st with current := t, saved := ts }
  | GLCmd.glRotatef a x y z => { st with current := st.current ++ [TOp.rotate a x y z] }
  | GLCmd.glRotated a x y z => { st with current := st.current ++ [TOp.rotate a x y z] }
  | GLCmd.glTranslatef x y z => { st with current := st.current ++ [TOp.translate x y z] }
  | GLCmd.glVertex2f x y => { st with drawn := st.drawn ++ [(st.current, GLCmd.glVertex2f x y)] }
  | GLCmd.glutSolidSphere r a b =>
    { st with drawn := st.drawn ++ [(st.current, GLCmd.glutSolidSphere r a b)] }
  | _ => st

/-- The effect of a sequence of calls. -/
def GLState.run (st : GLState F) (cmds : List (GLCmd F)) : GLState F :=
  cmds.foldl GLState.step st

/-- The transformations that the calls of a list multiply onto the current matrix. -/
def toOps : List (GLCmd F) → List (TOp F)
  | [] => []
  | GLCmd.glRotatef a x y z :: cs => TOp.rotate a x y z :: toOps cs
  | GLCmd.glRotated a x y z :: cs => TOp.rotate a x y z :: toOps cs
  | GLCmd.glTranslatef x y z :: cs => TOp.translate x y z :: toOps cs
  | _ :: cs => toOps cs

/-- Cosine and sine of an angle given in degrees, as OpenGL uses them in a rotation. -/
structure GLTrig (F : Type) where
  cosd : F → F
  sind : F → F

/-- The image of a point under one transformation: the rotation by `angle` degrees about the
unit axis `(x, y, z)` (the matrix of `glRotate`), or the translation by `(x, y, z)`. -/
def TOp.apply [CommRing F] (g : GLTrig F) : TOp F → F × F × F → F × F × F
  | TOp.rotate angle x y z, (px, py, pz) =>
    let c := g.cosd angle
    let s := g.sind angle
    ( (x * x * (1 - c) + c) * px + (x * y * (1 - c) - z * s) * py + (x * z * (1 - c) + y * s) * pz,
      (y * x * (1 - c) + z * s) * px + (y * y * (1 - c) + c) * py + (y * z * (1 - c) - x * s) * pz,
      (x * z * (1 - c) - y * s) * px + (y * z * (1 - c) + x * s) * py + (z * z * (1 - c) + c) * pz )
  | TOp.translate x y z, (px, py, pz) => (px + x, py + y, pz + z)

/-- The image of a point under a matrix: the transformation issued last acts first. -/
def applyOps [CommRing F] (g : GLTrig F) (ops : List (TOp F)) (p : F × F × F) : F × F × F :=
  ops.foldr (TOp.apply g) p

end OpenGL


section Scenario

/-- The body of the scenario of the specification in exact arithmetic: radius 1, distance 10,
period 36, self-rotation speed 5, no parent. -/
def scenarioBody : Star ℚ := Star.ctor 1 10 36 5 none

/-- A store in which every address (address 0 in particular) holds the body of the scenario
after one `update(1)`: distance 10, orbital angle 10. -/
def planetHeap : Heap ℚ := fun _ => scenarioBody.update 1

/-- A cosine and a sine on `ℚ` whose squares add up to 1 (the rational parametrisation of the
unit circle), to run the drawing code on concrete bodies. -/
def ratMath : CMath ℚ :=
  { cos := fun t => (1 - t ^ 2) / (1 + t ^ 2)
    sin := fun t => 2 * t / (1 + t ^ 2) }

/-- The same functions as the cosine and sine of OpenGL. -/
def ratTrig : GLTrig ℚ :=
  { cosd := ratMath.cos
    sind := ratMath.sin }

/-- The OpenGL state with the current matrix as the reference frame, nothing saved and nothing
drawn. -/
def GLState.initial : GLState ℚ :=
  { current := []
    saved := []
    drawn := [] }

/-- The `GLfloat` literal of the decimal `q`. -/
def f32 (q : ℚ) : GLfloat := IEEE.ofRat binary32 q

/-- The body of the scenario of the specification: `Star(1, 10, 36, 5, 0)`. -/
def scenarioBody32 : Star GLfloat := Star.ctor (f32 1) (f32 10) (f32 36) (f32 5) none

/-- A body of period 7: `Star(1, 10, 7, 5, 0)`. -/
def period7Body : Star GLfloat := Star.ctor (f32 1) (f32 10) (f32 7) (f32 5) none

/-- A body of period 360, angular speed 1: `Star(1, 10, 360, 5, 0)`. -/
def period360Body : Star GLfloat := Star.ctor (f32 1) (f32 10) (f32 360) (f32 5) none

/-- A store in which every address holds `Star(1, -10, 36, 5, 0)` after one `update(1)`: a body
at the negative distance -10, orbital angle 10. -/
def backwardHeap : Heap GLfloat :=
  fun _ => (Star.ctor (f32 1) (f32 (-10)) (f32 36) (f32 5) none).update 1

/-- A store in which every address holds the body of the scenario after one `update(1)`: a
body at the distance 10, orbital angle 10. -/
def forwardHeap : Heap GLfloat := fun _ => scenarioBody32.update 1

/-- A moon, `Star(0.5, 2, 12, 5, parent)`, with its parent at address 0. -/
def moon : Star GLfloat := Star.ctor (f32 (1 / 2)) (f32 2) (f32 12) (f32 5) (some 0)

end Scenario

set_option linter.unusedSectionVars false

set_option maxRecDepth 100000

section Update

variable {F : Type} [Add F] [Mul F] [IntCast F]

/-! ### `update` -/

theorem Star.update_iterate_speed (T : Int) (N : Nat) (s : Star F) :
    ((fun b : Star F => b.update T)^[N] s).speed = s.speed := by
  induction N generalizing s with
  | zero => rfl
  | succ k ih => rw [Function.iterate_succ_apply, ih]; rfl

theorem Heap.update_iterate_this (h : Heap F) (this : Addr) (T : Int) (N : Nat) :
    (fun g : Heap F => g.update this T)^[N] h this = (fun b : Star F => b.update T)^[N] (h this) := by
  induction N generalizing h with
  | zero => rfl
  | succ k ih =>
    rw [Function.iterate_succ_apply, Function.iterate_succ_apply, ih]
    simp [Heap.update]

/-- C10: `update(T)` on the body at address `this` leaves the dynamic type, radius, distance,
angular speed, self-rotation speed, colour and parent reference of every object as they were
(of the body itself too), and leaves every object at another address, the parent body among
them, unchanged altogether.  This holds in every arithmetic, that of `GLfloat` included. -/
theorem update_frame (h : Heap F) (this : Addr) (T : Int) :
    (∀ a : Addr,
      (h.update this T a).vptr = (h a).vptr ∧
      (h.update this T a).radius = (h a).radius ∧
      (h.update this T a).distance = (h a).distance ∧
      (h.update this T a).speed = (h a).speed ∧
      (h.update this T a).selfSpeed = (h a).selfSpeed ∧
      (h.update this T a).rgbaColor = (h a).rgbaColor ∧
      (h.update this T a).parentStar = (h a).parentStar) ∧
    (∀ a : Addr, a ≠ this → h.update this T a = h a) ∧
    (∀ p : Addr, (h this).parentStar = some p → p ≠ this → h.update this T p = h p) := by
  refine ⟨fun a => ?_, fun a ha => ?_, fun p _ hp => ?_⟩
  · by_cases ha : a = this
    · subst ha
      simp [Heap.update, Star.update]
    · simp [Heap.update, ha]
  · simp [Heap.update, ha]
  · simp [Heap.update, hp]

end Update

section Generic

variable {F D : Type} [Zero F] [One F] [Div F] [NatCast F] [LT F]
  [DecidableRel (fun a b : F => a < b)] [FloatConv F D] [Mul D] [Div D] [NatCast D]

/-! ### The effect of the drawing methods on the OpenGL state -/

theorem GLState.run_append (st : GLState F) (as bs : List (GLCmd F)) :
    st.run (as ++ bs) = (st.run as).run bs := by
  simp [GLState.run, List.foldl_append]

theorem GLState.run_vertices (cs : List (GLCmd F)) (hcs : ∀ c ∈ cs, c.isVertex = true)
    (st : GLState F) :
    st.run cs = { st with drawn := st.drawn ++ cs.map fun c => (st.current, c) } := by
  induction cs generalizing st with
  | nil => simp [GLState.run]
  | cons c cs ih =>
    have hc : c.isVertex = true := hcs c (List.mem_cons_self c cs)
    have hrest : ∀ d ∈ cs, d.isVertex = true := fun d hd => hcs d (List.mem_cons_of_mem c hd)
    have hstep : st.run (c :: cs) = (st.step c).run cs := rfl
    rw [hstep, ih hrest]
    cases c <;> simp [GLCmd.isVertex] at hc
    simp [GLState.step]

theorem Star.orbitVertices_isVertex (m : CMath D) (s : Star F) (n : Nat) :
    ∀ c ∈ s.orbitVertices m n, c.isVertex = true := by
  intro c hc
  simp only [Star.orbitVertices, List.mem_map] at hc
  obtain ⟨i, _, rfl⟩ := hc
  rfl

theorem GLState.run_parentOffset (h : Heap F) (s : Star F) (st : GLState F) :
    st.run (s.parentOffset h) = { st with current := st.current ++ toOps (s.parentOffset h) } := by
  unfold Star.parentOffset
  cases s.parentStar with
  | none => simp [GLState.run, toOps]
  | some p =>
    by_cases hd : (h p).distance > 0
    · simp [hd, GLState.run, GLState.step, toOps]
    · simp [hd, GLState.run, toOps]

theorem GLState.run_path (vs : List (GLCmd F)) (hvs : ∀ c ∈ vs, c.isVertex = true)
    (st : GLState F) :
    st.run (GLCmd.glBegin GLenum.GL_LINES :: (vs ++ [GLCmd.glEnd])) =
      { st with drawn := st.drawn ++ vs.map fun c => (st.current, c) } := by
  have h1 : st.run (GLCmd.glBegin GLenum.GL_LINES :: (vs ++ [GLCmd.glEnd])) =
      (st.run vs).run [GLCmd.glEnd] := by
    rw [← GLState.run_append]; rfl
  rw [h1, GLState.run_vertices vs hvs]
  rfl

theorem GLState.run_drawStar (m : CMath D) (h : Heap F) (s : Star F) (st : GLState F) :
    st.run (s.drawStar m h) =
      { current := st.current
        saved := st.saved
        drawn := st.drawn
          ++ (s.orbitVertices m 1440).map (fun c => (st.current ++ toOps (s.parentOffset h), c))
          ++ [(st.current ++ toOps (s.parentOffset h)
                ++ [TOp.rotate s.alpha 0 0 1, TOp.translate s.distance 0 0,
                    TOp.rotate s.alphaSelf 0 0 1],
               GLCmd.glutSolidSphere s.radius 40 32)] } := by
  unfold Star.drawStar Star.orbitPath
  rw [GLState.run_append, GLState.run_append, GLState.run_append, GLState.run_append]
  have hpre : st.run [GLCmd.glEnable GLenum.GL_LINE_SMOOTH, GLCmd.glEnable GLenum.GL_BLEND,
      GLCmd.glPushMatrix] = { st with saved := st.current :: st.saved } := rfl
  rw [hpre, GLState.run_parentOffset, GLState.run_path _ (s.orbitVertices_isVertex m 1440)]
  generalize s.orbitVertices m 1440 = vs
  simp [GLState.run, GLState.step, Star.placeSphere]

theorem GLState.run_drawPlanet (s : Star F) (st : GLState F) :
    st.run (Planet.drawPlanet s) = st := rfl

theorem GLState.run_drawLight (st : GLState F) :
    st.run (LightPlanet.drawLight : List (GLCmd F)) = st := rfl

theorem GLState.run_draw (m : CMath D) (h : Heap F) (s : Star F) (st : GLState F) :
    st.run (draw m h s) = st.run (s.drawStar m h) := by
  unfold draw Star.draw Planet.draw LightPlanet.draw
  cases s.vptr
  · rfl
  · simp only []
    rw [GLState.run_append, GLState.run_drawPlanet]
  · simp only []
    rw [GLState.run_append, GLState.run_append, GLState.run_drawLight, GLState.run_drawPlanet]

/-! ### The calls of each part of `draw()` -/

theorem countP_eq_zero_of_false (p : GLCmd F → Bool) (cs : List (GLCmd F))
    (hcs : ∀ c ∈ cs, p c = false) : cs.countP p = 0 := by
  rw [List.countP_eq_zero]
  intro c hc
  simp [hcs c hc]

theorem drawLight_kind (c : GLCmd F) (hc : c ∈ (LightPlanet.drawLight : List (GLCmd F))) :
    c.isLight = true ∧ c.isMaterial = false ∧ c.isPush = false ∧ c.isPop = false ∧
      c.isTransform = false := by
  simp only [LightPlanet.drawLight, List.mem_cons, List.mem_singleton, List.not_mem_nil,
    or_false] at hc
  rcases hc with rfl | rfl | rfl | rfl <;> exact ⟨rfl, rfl, rfl, rfl, rfl⟩

theorem drawPlanet_kind (s : Star F) (c : GLCmd F) (hc : c ∈ Planet.drawPlanet s) :
    c.isMaterial = true ∧ c.isLight = false ∧ c.isPush = false ∧ c.isPop = false ∧
      c.isTransform = false := by
  simp only [Planet.drawPlanet, List.mem_cons, List.mem_singleton, List.not_mem_nil,
    or_false] at hc
  rcases hc with rfl | rfl | rfl | rfl | rfl <;> exact ⟨rfl, rfl, rfl, rfl, rfl⟩

theorem parentOffset_kind (h : Heap F) (s : Star F) (c : GLCmd F) (hc : c ∈ s.parentOffset h) :
    c.isLight = false ∧ c.isMaterial = false ∧ c.isPush = false ∧ c.isPop = false := by
  unfold Star.parentOffset at hc
  cases hp : s.parentStar with
  | none => simp [hp] at hc
  | some p =>
    simp only [hp] at hc
    by_cases hd : (h p).distance > 0
    · simp only [hd, if_true, List.mem_cons, List.mem_singleton, List.not_mem_nil,
        or_false] at hc
      rcases hc with rfl | rfl <;> exact ⟨rfl, rfl, rfl, rfl⟩
    · simp [hd] at hc

theorem orbitPath_kind (m : CMath D) (s : Star F) (c : GLCmd F) (hc : c ∈ s.orbitPath m) :
    c.isLight = false ∧ c.isMaterial = false ∧ c.isPush = false ∧ c.isPop = false ∧
      c.isTransform = false := by
  simp only [Star.orbitPath, List.mem_cons, List.mem_append, List.mem_singleton,
    List.not_mem_nil, or_false] at hc
  rcases hc with rfl | hv | rfl
  · exact ⟨rfl, rfl, rfl, rfl, rfl⟩
  · have hv2 := s.orbitVertices_isVertex m 1440 c hv
    cases c <;> simp [GLCmd.isVertex] at hv2
    exact ⟨rfl, rfl, rfl, rfl, rfl⟩
  · exact ⟨rfl, rfl, rfl, rfl, rfl⟩

theorem placeSphere_kind (s : Star F) (c : GLCmd F) (hc : c ∈ s.placeSphere) :
    c.isLight = false ∧ c.isMaterial = false ∧ c.isPush = false ∧ c.isPop = false := by
  simp only [Star.placeSphere, List.mem_cons, List.mem_singleton, List.not_mem_nil,
    or_false] at hc
  rcases hc with rfl | rfl | rfl | rfl | rfl <;> exact ⟨rfl, rfl, rfl, rfl⟩

theorem drawStar_kind (m : CMath D) (h : Heap F) (s : Star F) (c : GLCmd F)
    (hc : c ∈ s.drawStar m h) : c.isLight = false ∧ c.isMaterial = false := by
  simp only [Star.drawStar, List.mem_append, List.mem_cons, List.mem_singleton,
    List.not_mem_nil, or_false] at hc
  rcases hc with (((((rfl | rfl | rfl) | hc) | hc) | hc) | rfl)
  · exact ⟨rfl, rfl⟩
  · exact ⟨rfl, rfl⟩
  · exact ⟨rfl, rfl⟩
  · exact ⟨(parentOffset_kind h s c hc).1, (parentOffset_kind h s c hc).2.1⟩
  · exact ⟨(orbitPath_kind m s c hc).1, (orbitPath_kind m s c hc).2.1⟩
  · exact ⟨(placeSphere_kind s c hc).1, (placeSphere_kind s c hc).2.1⟩
  · exact ⟨rfl, rfl⟩

theorem drawStar_countP_isLight (m : CMath D) (h : Heap F) (s : Star F) :
    (s.drawStar m h).countP GLCmd.isLight = 0 :=
  countP_eq_zero_of_false _ _ fun c hc => (drawStar_kind m h s c hc).1

theorem drawStar_countP_isMaterial (m : CMath D) (h : Heap F) (s : Star F) :
    (s.drawStar m h).countP GLCmd.isMaterial = 0 :=
  countP_eq_zero_of_false _ _ fun c hc => (drawStar_kind m h s c hc).2

/-- C7: `draw()` of a `LightPlanet` is exactly the four `glLightfv` calls of the light setup,
then the five material calls of the material setup, then the base geometry draw; of a `Planet`
exactly the five material calls then the base geometry draw, with no light command; of a
`Star` exactly the base geometry draw, with no light or material command.  This is the
composition by capability of the specification.  The base geometry draw is `glEnable` twice,
`glPushMatrix`, the parent offset, the orbit path, the five calls that place the sphere and
`glPopMatrix`, and it does not depend on the variant. -/
theorem draw_composition (m : CMath D) (h : Heap F) (s : Star F) :
    (s.vptr = Variant.LightPlanet →
      draw m h s =
        [ GLCmd.glLightfv GLenum.GL_LIGHT0 GLenum.GL_POSITION ![0, 0, 0, 1],
          GLCmd.glLightfv GLenum.GL_LIGHT0 GLenum.GL_AMBIENT ![0, 0, 0, 1],
          GLCmd.glLightfv GLenum.GL_LIGHT0 GLenum.GL_DIFFUSE ![1, 1, 1, 1],
          GLCmd.glLightfv GLenum.GL_LIGHT0 GLenum.GL_SPECULAR ![1, 1, 1, 1] ]
        ++ [ GLCmd.glMaterialfv GLenum.GL_FRONT GLenum.GL_AMBIENT ![0, 0, 1 / ((2 : Nat) : F), 1],
             GLCmd.glMaterialfv GLenum.GL_FRONT GLenum.GL_DIFFUSE ![0, 0, 1 / ((2 : Nat) : F), 1],
             GLCmd.glMaterialfv GLenum.GL_FRONT GLenum.GL_SPECULAR ![0, 0, 1, 1],
             GLCmd.glMaterialfv GLenum.GL_FRONT GLenum.GL_EMISSION
               ![s.rgbaColor 0, s.rgbaColor 1, s.rgbaColor 2, s.rgbaColor 3],
             GLCmd.glMaterialf GLenum.GL_FRONT GLenum.GL_SHININESS ((90 : Nat) : F) ]
        ++ s.drawStar m h) ∧
    (s.vptr = Variant.Planet →
      draw m h s =
        [ GLCmd.glMaterialfv GLenum.GL_FRONT GLenum.GL_AMBIENT ![0, 0, 1 / ((2 : Nat) : F), 1],
          GLCmd.glMaterialfv GLenum.GL_FRONT GLenum.GL_DIFFUSE ![0, 0, 1 / ((2 : Nat) : F), 1],
          GLCmd.glMaterialfv GLenum.GL_FRONT GLenum.GL_SPECULAR ![0, 0, 1, 1],
          GLCmd.glMaterialfv GLenum.GL_FRONT GLenum.GL_EMISSION
            ![s.rgbaColor 0, s.rgbaColor 1, s.rgbaColor 2, s.rgbaColor 3],
          GLCmd.glMaterialf GLenum.GL_FRONT GLenum.GL_SHININESS ((90 : Nat) : F) ]
        ++ s.drawStar m h) ∧
    (s.vptr = Variant.Star → draw m h s = s.drawStar m h) ∧
    draw m h s = drawByCapability (decide (s.vptr = Variant.LightPlanet))
      (decide (s.vptr ≠ Variant.Star)) LightPlanet.drawLight (Planet.drawPlanet s)
      (s.drawStar m h) ∧
    ((draw m h s).countP GLCmd.isLight = if s.vptr = Variant.LightPlanet then 4 else 0) ∧
    ((draw m h s).countP GLCmd.isMaterial = if s.vptr = Variant.Star then 0 else 5) ∧
    (∀ c ∈ s.drawStar m h, c.isLight = false ∧ c.isMaterial = false) ∧
    s.drawStar m h =
      [GLCmd.glEnable GLenum.GL_LINE_SMOOTH, GLCmd.glEnable GLenum.GL_BLEND, GLCmd.glPushMatrix]
        ++ s.parentOffset h
        ++ (GLCmd.glBegin GLenum.GL_LINES :: (s.orbitVertices m 1440 ++ [GLCmd.glEnd]))
        ++ [GLCmd.glRotated s.alpha 0 0 1,
            GLCmd.glTranslatef s.distance 0 0,
            GLCmd.glRotatef s.alphaSelf 0 0 1,
            GLCmd.glColor3f (s.rgbaColor 0) (s.rgbaColor 1) (s.rgbaColor 2),
            GLCmd.glutSolidSphere s.radius 40 32]
        ++ [GLCmd.glPopMatrix] ∧
    (∀ v : Variant, Star.drawStar m h { s with vptr := v } = s.drawStar m h) := by
  have hL : (LightPlanet.drawLight : List (GLCmd F)).countP GLCmd.isLight = 4 := rfl
  have hLM : (LightPlanet.drawLight : List (GLCmd F)).countP GLCmd.isMaterial = 0 := rfl
  have hP : (Planet.drawPlanet s).countP GLCmd.isMaterial = 5 := rfl
  have hPL : (Planet.drawPlanet s).countP GLCmd.isLight = 0 := rfl
  refine ⟨fun hv => ?_, fun hv => ?_, fun hv => ?_, ?_, ?_, ?_,
    fun c hc => drawStar_kind m h s c hc, rfl, fun v => rfl⟩
  · simp only [draw, hv, LightPlanet.draw]
    rfl
  · simp only [draw, hv, Planet.draw]
    rfl
  · simp only [draw, hv, Star.draw]
  · cases hv : s.vptr <;>
      simp [draw, hv, drawByCapability, Star.draw, Planet.draw, LightPlanet.draw]
  · cases hv : s.vptr
    · simp only [draw, hv, Star.draw, drawStar_countP_isLight]
      simp
    · simp only [draw, hv, Planet.draw, List.countP_append, hPL, drawStar_countP_isLight]
      simp
    · simp only [draw, hv, LightPlanet.draw, List.countP_append, hL, hPL,
        drawStar_countP_isLight]
      simp
  · cases hv : s.vptr
    · simp only [draw, hv, Star.draw, drawStar_countP_isMaterial]
      simp
    · simp only [draw, hv, Planet.draw, List.countP_append, hP, drawStar_countP_isMaterial]
      simp
    · simp only [draw, hv, LightPlanet.draw, List.countP_append, hLM, hP,
        drawStar_countP_isMaterial]
      simp

/-! ### The matrix stack -/

theorem drawStar_split (m : CMath D) (h : Heap F) (s : Star F) :
    s.drawStar m h =
      [GLCmd.glEnable GLenum.GL_LINE_SMOOTH, GLCmd.glEnable GLenum.GL_BLEND]
        ++ GLCmd.glPushMatrix ::
          ((s.parentOffset h ++ s.orbitPath m ++ s.placeSphere) ++ [GLCmd.glPopMatrix]) := by
  simp [Star.drawStar]

theorem drawStar_inner_kind (m : CMath D) (h : Heap F) (s : Star F) (c : GLCmd F)
    (hc : c ∈ s.parentOffset h ++ s.orbitPath m ++ s.placeSphere) :
    c.isPush = false ∧ c.isPop = false := by
  simp only [List.mem_append] at hc
  rcases hc with (hc | hc) | hc
  · exact ⟨(parentOffset_kind h s c hc).2.2.1, (parentOffset_kind h s c hc).2.2.2⟩
  · exact ⟨(orbitPath_kind m s c hc).2.2.1, (orbitPath_kind m s c hc).2.2.2.1⟩
  · exact ⟨(placeSphere_kind s c hc).2.2.1, (placeSphere_kind s c hc).2.2.2⟩

theorem draw_split (m : CMath D) (h : Heap F) (s : Star F) :
    ∃ pre mid : List (GLCmd F),
      draw m h s = pre ++ GLCmd.glPushMatrix :: (mid ++ [GLCmd.glPopMatrix]) ∧
      (∀ c ∈ pre, c.isPush = false ∧ c.isPop = false ∧ c.isTransform = false) ∧
      (∀ c ∈ mid, c.isPush = false ∧ c.isPop = false) := by
  have henable : ∀ c ∈ [GLCmd.glEnable GLenum.GL_LINE_SMOOTH, GLCmd.glEnable (F := F)
      GLenum.GL_BLEND], c.isPush = false ∧ c.isPop = false ∧ c.isTransform = false := by
    intro c hc
    simp only [List.mem_cons, List.mem_singleton, List.not_mem_nil, or_false] at hc
    rcases hc with rfl | rfl <;> exact ⟨rfl, rfl, rfl⟩
  have hlight : ∀ c ∈ (LightPlanet.drawLight : List (GLCmd F)),
      c.isPush = false ∧ c.isPop = false ∧ c.isTransform = false := fun c hc =>
    ⟨(drawLight_kind c hc).2.2.1, (drawLight_kind c hc).2.2.2.1, (drawLight_kind c hc).2.2.2.2⟩
  have hmat : ∀ c ∈ Planet.drawPlanet s,
      c.isPush = false ∧ c.isPop = false ∧ c.isTransform = false := fun c hc =>
    ⟨(drawPlanet_kind s c hc).2.2.1, (drawPlanet_kind s c hc).2.2.2.1,
      (drawPlanet_kind s c hc).2.2.2.2⟩
  cases hv : s.vptr
  · refine ⟨[GLCmd.glEnable GLenum.GL_LINE_SMOOTH, GLCmd.glEnable GLenum.GL_BLEND],
      s.parentOffset h ++ s.orbitPath m ++ s.placeSphere, ?_, henable,
      drawStar_inner_kind m h s⟩
    simp only [draw, hv, Star.draw]
    exact drawStar_split m h s
  · refine ⟨Planet.drawPlanet s
        ++ [GLCmd.glEnable GLenum.GL_LINE_SMOOTH, GLCmd.glEnable GLenum.GL_BLEND],
      s.parentOffset h ++ s.orbitPath m ++ s.placeSphere, ?_, ?_, drawStar_inner_kind m h s⟩
    · simp only [draw, hv, Planet.draw]
      rw [drawStar_split]
      simp only [List.append_assoc]
    · intro c hc
      rcases List.mem_append.mp hc with hc | hc
      · exact hmat c hc
      · exact henable c hc
  · refine ⟨LightPlanet.drawLight ++ Planet.drawPlanet s
        ++ [GLCmd.glEnable GLenum.GL_LINE_SMOOTH, GLCmd.glEnable GLenum.GL_BLEND],
      s.parentOffset h ++ s.orbitPath m ++ s.placeSphere, ?_, ?_, drawStar_inner_kind m h s⟩
    · simp only [draw, hv, LightPlanet.draw]
      rw [drawStar_split]
      simp only [List.append_assoc]
    · intro c hc
      rcases List.mem_append.mp hc with hc | hc
      · rcases List.mem_append.mp hc with hc | hc
        · exact hlight c hc
        · exact hmat c hc
      · exact henable c hc

theorem GLState.run_draw_stack (m : CMath D) (h : Heap F) (s : Star F) (st : GLState F) :
    (st.run (draw m h s)).current = st.current ∧ (st.run (draw m h s)).saved = st.saved := by
  rw [GLState.run_draw, GLState.run_drawStar]
  exact ⟨rfl, rfl⟩

theorem GLState.run_draws_stack (m : CMath D) (calls : List (Heap F × Star F))
    (st : GLState F) :
    (st.run (calls.flatMap fun hs => draw m hs.1 hs.2)).current = st.current ∧
      (st.run (calls.flatMap fun hs => draw m hs.1 hs.2)).saved = st.saved := by
  induction calls generalizing st with
  | nil => exact ⟨rfl, rfl⟩
  | cons hs calls ih =>
    rw [List.flatMap_cons, GLState.run_append]
    obtain ⟨h1, h2⟩ := ih (st.run (draw m hs.1 hs.2))
    obtain ⟨h3, h4⟩ := GLState.run_draw_stack m hs.1 hs.2 st
    exact ⟨h1.trans h3, h2.trans h4⟩

/-- C8: one `draw()`, of any variant, makes exactly one `glPushMatrix` and exactly one
`glPopMatrix`; the push comes before every rotation and translation and the pop, the last call,
after all of them; so the current matrix and the matrix stack (its depth with it) are after
`draw()` what they were before, and the same holds after any sequence of `draw()` calls. -/
theorem draw_push_pop_balanced (m : CMath D) (h : Heap F) (s : Star F) (st : GLState F) :
    (draw m h s).countP GLCmd.isPush = 1 ∧ (draw m h s).countP GLCmd.isPop = 1 ∧
    (∃ pre mid : List (GLCmd F),
      draw m h s = pre ++ GLCmd.glPushMatrix :: (mid ++ [GLCmd.glPopMatrix]) ∧
      (∀ c ∈ pre, c.isPush = false ∧ c.isPop = false ∧ c.isTransform = false) ∧
      (∀ c ∈ mid, c.isPush = false ∧ c.isPop = false)) ∧
    ((st.run (draw m h s)).current = st.current ∧ (st.run (draw m h s)).saved = st.saved ∧
      (st.run (draw m h s)).saved.length = st.saved.length) ∧
    (∀ calls : List (Heap F × Star F),
      (st.run (calls.flatMap fun hs => draw m hs.1 hs.2)).current = st.current ∧
      (st.run (calls.flatMap fun hs => draw m hs.1 hs.2)).saved = st.saved) := by
  obtain ⟨pre, mid, hsplit, hpre, hmid⟩ := draw_split m h s
  have hpush : (draw m h s).countP GLCmd.isPush = 1 := by
    rw [hsplit, List.countP_append, List.countP_cons, List.countP_append,
      countP_eq_zero_of_false _ pre fun c hc => (hpre c hc).1,
      countP_eq_zero_of_false _ mid fun c hc => (hmid c hc).1]
    rfl
  have hpop : (draw m h s).countP GLCmd.isPop = 1 := by
    rw [hsplit, List.countP_append, List.countP_cons, List.countP_append,
      countP_eq_zero_of_false _ pre fun c hc => (hpre c hc).2.1,
      countP_eq_zero_of_false _ mid fun c hc => (hmid c hc).2]
    rfl
  obtain ⟨hcur, hsaved⟩ := GLState.run_draw_stack m h s st
  exact ⟨hpush, hpop, ⟨pre, mid, hsplit, hpre, hmid⟩, ⟨hcur, hsaved, by rw [hsaved]⟩,
    fun calls => GLState.run_draws_stack m calls st⟩


theorem parentOffset_pos (h : Heap F) (s : Star F) (p : Addr) (hp : s.parentStar = some p)
    (hd : (h p).distance > 0) :
    s.parentOffset h =
      [GLCmd.glRotatef (h p).alpha 0 0 1, GLCmd.glTranslatef (h p).distance 0 0] := by
  simp [Star.parentOffset, hp, hd]

theorem parentOffset_none (h : Heap F) (s : Star F)
    (hs : s.parentStar = none ∨ ∃ p, s.parentStar = some p ∧ ¬ (h p).distance > 0) :
    s.parentOffset h = [] := by
  rcases hs with hp | ⟨p, hp, hd⟩
  · simp [Star.parentOffset, hp]
  · simp [Star.parentOffset, hp, hd]

/-- For a body with a non-null parent reference whose parent has a positive distance,
`drawStar` emits, right after `glPushMatrix` and before the orbit path, the rotation
about the z axis by the orbital angle of the parent and then the translation by
`(parent.distance, 0, 0)`; the vertices of the orbit and the sphere are drawn under the matrix in
force at the call followed by these two transformations. -/
theorem drawStar_parent_offset (m : CMath D) (h : Heap F) (s : Star F) (p : Addr)
    (st : GLState F) (hp : s.parentStar = some p) (hd : (h p).distance > 0) :
    s.drawStar m h =
      [GLCmd.glEnable GLenum.GL_LINE_SMOOTH, GLCmd.glEnable GLenum.GL_BLEND, GLCmd.glPushMatrix,
        GLCmd.glRotatef (h p).alpha 0 0 1, GLCmd.glTranslatef (h p).distance 0 0]
        ++ s.orbitPath m ++ s.placeSphere ++ [GLCmd.glPopMatrix] ∧
    (st.run (s.drawStar m h)).drawn =
      st.drawn
        ++ (s.orbitVertices m 1440).map (fun c =>
            (st.current ++ [TOp.rotate (h p).alpha 0 0 1, TOp.translate (h p).distance 0 0], c))
        ++ [(st.current ++ [TOp.rotate (h p).alpha 0 0 1, TOp.translate (h p).distance 0 0]
              ++ [TOp.rotate s.alpha 0 0 1, TOp.translate s.distance 0 0,
                  TOp.rotate s.alphaSelf 0 0 1],
             GLCmd.glutSolidSphere s.radius 40 32)] := by
  constructor
  · simp [Star.drawStar, parentOffset_pos h s p hp hd]
  · rw [GLState.run_drawStar, parentOffset_pos h s p hp hd]
    rfl

end Generic

section Exact

variable {F : Type} [LinearOrderedField F]

/-! ### Exact arithmetic -/

theorem Star.update_iterate_alpha (T : Int) (N : Nat) (s : Star F) :
    ((fun b : Star F => b.update T)^[N] s).alpha = s.alpha + (N : F) * (T : F) * s.speed := by
  induction N generalizing s with
  | zero => simp
  | succ k ih =>
    rw [Function.iterate_succ_apply, ih]
    simp only [Star.update, Nat.cast_succ]
    ring

theorem ratMath_sq (t : ℚ) : ratMath.cos t ^ 2 + ratMath.sin t ^ 2 = 1 := by
  have h : (1 + t ^ 2) ≠ 0 := by positivity
  simp only [ratMath]
  field_simp
  ring

theorem orbitVertices_on_circle (m : CMath F) (s : Star F) (n : Nat)
    (hm : ∀ t, m.cos t ^ 2 + m.sin t ^ 2 = 1) :
    ∀ c ∈ s.orbitVertices m n,
      ∃ x y : F, c = GLCmd.glVertex2f x y ∧ x ^ 2 + y ^ 2 = s.distance ^ 2 := by
  intro c hc
  simp only [Star.orbitVertices, List.mem_map] at hc
  obtain ⟨i, _, rfl⟩ := hc
  refine ⟨_, _, rfl, ?_⟩
  show (s.distance * m.cos _) ^ 2 + (s.distance * m.sin _) ^ 2 = s.distance ^ 2
  rw [mul_pow, mul_pow, ← mul_add, hm, mul_one]

/-- C5: for a body with no parent, or with a parent at distance 0, `drawStar` emits the orbit
path right after `glPushMatrix`, with no rotation or translation in between; so the vertices of
the orbit are drawn under the matrix in force when `draw` was called, and (for a cosine and sine
whose squares add up to 1) they lie on the circle of radius `distance` about the origin of
that frame. -/
theorem drawStar_no_parent_offset (m : CMath F) (h : Heap F) (s : Star F) (st : GLState F)
    (hs : s.parentStar = none ∨ ∃ p, s.parentStar = some p ∧ (h p).distance = 0) :
    s.drawStar m h =
      [GLCmd.glEnable GLenum.GL_LINE_SMOOTH, GLCmd.glEnable GLenum.GL_BLEND, GLCmd.glPushMatrix]
        ++ s.orbitPath m ++ s.placeSphere ++ [GLCmd.glPopMatrix] ∧
    (∀ c ∈ s.orbitPath m, c.isTransform = false) ∧
    (∀ t c, (t, c) ∈ (st.run (s.drawStar m h)).drawn → c.isVertex = true →
      (t, c) ∈ st.drawn ∨ t = st.current) ∧
    (st.run (s.drawStar m h)).drawn =
      st.drawn ++ (s.orbitVertices m 1440).map (fun c => (st.current, c))
        ++ [(st.current ++ [TOp.rotate s.alpha 0 0 1, TOp.translate s.distance 0 0,
              TOp.rotate s.alphaSelf 0 0 1], GLCmd.glutSolidSphere s.radius 40 32)] ∧
    ((∀ t, m.cos t ^ 2 + m.sin t ^ 2 = 1) →
      ∀ c ∈ s.orbitVertices m 1440,
        ∃ x y : F, c = GLCmd.glVertex2f x y ∧ x ^ 2 + y ^ 2 = s.distance ^ 2) := by
  have hoff : s.parentOffset h = [] := by
    apply parentOffset_none
    rcases hs with hp | ⟨p, hp, hd⟩
    · exact Or.inl hp
    · exact Or.inr ⟨p, hp, by rw [hd]; exact lt_irrefl 0⟩
  have hdrawn : (st.run (s.drawStar m h)).drawn =
      st.drawn ++ (s.orbitVertices m 1440).map (fun c => (st.current, c))
        ++ [(st.current ++ [TOp.rotate s.alpha 0 0 1, TOp.translate s.distance 0 0,
              TOp.rotate s.alphaSelf 0 0 1], GLCmd.glutSolidSphere s.radius 40 32)] := by
    rw [GLState.run_drawStar, hoff]
    simp [toOps]
  refine ⟨by simp [Star.drawStar, hoff], fun c hc => (orbitPath_kind m s c hc).2.2.2.2, ?_,
    hdrawn, fun hm => orbitVertices_on_circle m s 1440 hm⟩
  intro t c htc hv
  rw [hdrawn] at htc
  simp only [List.mem_append, List.mem_map, List.mem_singleton, Prod.mk.injEq] at htc
  rcases htc with (htc | ⟨d, _, rfl, rfl⟩) | ⟨rfl, rfl⟩
  · exact Or.inl htc
  · exact Or.inr rfl
  · simp [GLCmd.isVertex] at hv

/-- C5 at the body of the scenario, which has no parent. -/
theorem drawStar_no_parent_offset_witness :
    scenarioBody.parentStar = none ∧
    scenarioBody.drawStar ratMath planetHeap =
      [GLCmd.glEnable GLenum.GL_LINE_SMOOTH, GLCmd.glEnable GLenum.GL_BLEND, GLCmd.glPushMatrix]
        ++ scenarioBody.orbitPath ratMath ++ scenarioBody.placeSphere ++ [GLCmd.glPopMatrix] :=
  ⟨rfl, (drawStar_no_parent_offset ratMath planetHeap scenarioBody GLState.initial
    (Or.inl rfl)).1⟩

/-! ### The sphere -/

theorem applyOps_placeSphere (g : GLTrig F) (alpha distance alphaSelf : F) :
    applyOps g [TOp.rotate alpha 0 0 1, TOp.translate distance 0 0, TOp.rotate alphaSelf 0 0 1]
      (0, 0, 0) = (distance * g.cosd alpha, distance * g.sind alpha, 0) := by
  simp only [applyOps, List.foldr_cons, List.foldr_nil, TOp.apply]
  refine Prod.ext ?_ (Prod.ext ?_ ?_) <;> simp <;> ring

/-- C9: after the orbit path `drawStar` emits exactly: the rotation about the z axis by the
orbital angle of the body, the translation by `(distance, 0, 0)`, the rotation about the z
axis by the self-rotation angle, `glColor3f` of the first three components of the colour, and
the solid sphere of the radius of the body; then `glPopMatrix`.  With no parent offset the
sphere is drawn under the matrix in force at the call followed by these three transformations,
which take the centre of the sphere to `(distance * cos alpha, distance * sin alpha, 0)`, a
point of the circle of radius `distance` about the origin (for a cosine and sine whose squares
add up to 1). -/
theorem drawStar_sphere_placement (m : CMath F) (g : GLTrig F) (h : Heap F) (s : Star F)
    (st : GLState F) (hg : ∀ t, g.cosd t ^ 2 + g.sind t ^ 2 = 1) :
    s.drawStar m h =
      [GLCmd.glEnable GLenum.GL_LINE_SMOOTH, GLCmd.glEnable GLenum.GL_BLEND, GLCmd.glPushMatrix]
        ++ s.parentOffset h ++ s.orbitPath m
        ++ [GLCmd.glRotated s.alpha 0 0 1,
            GLCmd.glTranslatef s.distance 0 0,
            GLCmd.glRotatef s.alphaSelf 0 0 1,
            GLCmd.glColor3f (s.rgbaColor 0) (s.rgbaColor 1) (s.rgbaColor 2),
            GLCmd.glutSolidSphere s.radius 40 32]
        ++ [GLCmd.glPopMatrix] ∧
    ((s.parentStar = none ∨ ∃ p, s.parentStar = some p ∧ ¬ (h p).distance > 0) →
      (st.run (s.drawStar m h)).drawn =
        st.drawn ++ (s.orbitVertices m 1440).map (fun c => (st.current, c))
          ++ [(st.current ++ [TOp.rotate s.alpha 0 0 1, TOp.translate s.distance 0 0,
                TOp.rotate s.alphaSelf 0 0 1], GLCmd.glutSolidSphere s.radius 40 32)]) ∧
    applyOps g [TOp.rotate s.alpha 0 0 1, TOp.translate s.distance 0 0,
        TOp.rotate s.alphaSelf 0 0 1] (0, 0, 0)
      = (s.distance * g.cosd s.alpha, s.distance * g.sind s.alpha, 0) ∧
    (s.distance * g.cosd s.alpha) ^ 2 + (s.distance * g.sind s.alpha) ^ 2 = s.distance ^ 2 := by
  refine ⟨rfl, fun hs => ?_, applyOps_placeSphere g s.alpha s.distance s.alphaSelf, ?_⟩
  · rw [GLState.run_drawStar, parentOffset_none h s hs]
    simp [toOps]
  · rw [mul_pow, mul_pow, ← mul_add, hg, mul_one]

/-- C9 at the body of the scenario after one `update(1)`: orbital angle 10, distance 10. -/
theorem drawStar_sphere_placement_witness :
    (∀ t, ratTrig.cosd t ^ 2 + ratTrig.sind t ^ 2 = 1) ∧
    applyOps ratTrig [TOp.rotate (scenarioBody.update 1).alpha 0 0 1,
        TOp.translate (scenarioBody.update 1).distance 0 0,
        TOp.rotate (scenarioBody.update 1).alphaSelf 0 0 1] (0, 0, 0)
      = ((scenarioBody.update 1).distance * ratTrig.cosd (scenarioBody.update 1).alpha,
         (scenarioBody.update 1).distance * ratTrig.sind (scenarioBody.update 1).alpha, 0) :=
  ⟨ratMath_sq, (drawStar_sphere_placement ratMath ratTrig planetHeap (scenarioBody.update 1)
    GLState.initial ratMath_sq).2.2.1⟩

end Exact

section FloatModel

/-! ### The rounding of the floating-point model -/

theorem pow2_eq (e : Int) : pow2 e = (2 : ℚ) ^ e := by
  unfold pow2
  split
  · next h =>
    conv_rhs => rw [← Int.toNat_of_nonneg h]
    rw [zpow_natCast, Nat.cast_pow]
    norm_num
  · next h =>
    have hneg : 0 ≤ -e := by omega
    have he : e = -((-e).toNat : Int) := by rw [Int.toNat_of_nonneg hneg]; ring
    conv_rhs => rw [he]
    rw [zpow_neg, zpow_natCast, Nat.cast_pow]
    norm_num

theorem pow2_pos (e : Int) : 0 < pow2 e := by
  rw [pow2_eq]
  positivity

theorem roundTiesEven_abs_sub_le (x : ℚ) : |(roundTiesEven x : ℚ) - x| ≤ 1 / 2 := by
  have h1 : (⌊x⌋ : ℚ) ≤ x := Int.floor_le x
  have h2 : x < ⌊x⌋ + 1 := Int.lt_floor_add_one x
  unfold roundTiesEven
  split
  · next h => rw [abs_le]; constructor <;> linarith
  · next h =>
    have h3 : 1 / 2 ≤ x - ⌊x⌋ := not_lt.mp h
    split
    · next h4 => push_cast; rw [abs_le]; constructor <;> linarith
    · next h4 =>
      have h5 : x - ⌊x⌋ = 1 / 2 := le_antisymm (not_lt.mp h4) h3
      split
      · rw [abs_le]; constructor <;> linarith
      · push_cast; rw [abs_le]; constructor <;> linarith

theorem roundTiesEven_intCast (k : Int) : roundTiesEven (k : ℚ) = k := by
  unfold roundTiesEven
  simp

theorem log2Aux_spec (fuel n : Nat) (hn : 0 < n) (hfuel : n ≤ fuel) :
    2 ^ log2Aux fuel n ≤ n ∧ n < 2 ^ (log2Aux fuel n + 1) := by
  induction fuel generalizing n with
  | zero => omega
  | succ fuel ih =>
    unfold log2Aux
    split
    · next h => simp; omega
    · next h =>
      have h2 : 2 ≤ n := by omega
      have hdiv : 0 < n / 2 := Nat.div_pos h2 (by norm_num)
      have hle : n / 2 ≤ fuel := by omega
      obtain ⟨ih1, ih2⟩ := ih (n / 2) hdiv hle
      constructor
      · rw [pow_succ]; omega
      · rw [pow_succ]; omega

theorem log2_spec (n : Nat) (hn : 0 < n) : 2 ^ log2 n ≤ n ∧ n < 2 ^ (log2 n + 1) :=
  log2Aux_spec n n hn (le_refl n)

/-- The exponent of a non-zero number brackets it between two consecutive powers of two. -/
theorem exponent_spec (q : ℚ) (hq : q ≠ 0) :
    (2 : ℚ) ^ exponent q ≤ |q| ∧ |q| < (2 : ℚ) ^ (exponent q + 1) := by
  have hnum : 0 < q.num.natAbs := Int.natAbs_pos.mpr (Rat.num_ne_zero.mpr hq)
  have hden : 0 < q.den := q.den_pos
  obtain ⟨ha1, ha2⟩ := log2_spec q.num.natAbs hnum
  obtain ⟨hb1, hb2⟩ := log2_spec q.den hden
  have habs : |q| = (q.num.natAbs : ℚ) / (q.den : ℚ) := by
    conv_lhs => rw [← Rat.num_div_den q]
    rw [abs_div, Nat.abs_cast, Nat.cast_natAbs, Int.cast_abs]
  have hdenq : (0 : ℚ) < q.den := by exact_mod_cast hden
  have ha1q : (2 : ℚ) ^ (log2 q.num.natAbs : Int) ≤ (q.num.natAbs : ℚ) := by
    rw [zpow_natCast]; exact_mod_cast ha1
  have ha2q : (q.num.natAbs : ℚ) < (2 : ℚ) ^ ((log2 q.num.natAbs : Int) + 1) := by
    rw [zpow_add_one₀ (by norm_num), zpow_natCast, ← pow_succ]; exact_mod_cast ha2
  have hb1q : (2 : ℚ) ^ (log2 q.den : Int) ≤ (q.den : ℚ) := by
    rw [zpow_natCast]; exact_mod_cast hb1
  have hb2q : (q.den : ℚ) < (2 : ℚ) ^ ((log2 q.den : Int) + 1) := by
    rw [zpow_add_one₀ (by norm_num), zpow_natCast, ← pow_succ]; exact_mod_cast hb2
  have hpb : (0 : ℚ) < (2 : ℚ) ^ (log2 q.den : Int) := by positivity
  have hupper : |q| < (2 : ℚ) ^ ((log2 q.num.natAbs : Int) - log2 q.den + 1) := by
    rw [habs, div_lt_iff₀ hdenq]
    have hsplit : (2 : ℚ) ^ ((log2 q.num.natAbs : Int) - log2 q.den + 1)
        = (2 : ℚ) ^ ((log2 q.num.natAbs : Int) + 1) / (2 : ℚ) ^ (log2 q.den : Int) := by
      rw [← zpow_sub₀ (by norm_num)]; congr 1; ring
    rw [hsplit, div_mul_eq_mul_div, lt_div_iff₀ hpb]
    calc (q.num.natAbs : ℚ) * (2 : ℚ) ^ (log2 q.den : Int)
        ≤ (q.num.natAbs : ℚ) * (q.den : ℚ) := by
          apply mul_le_mul_of_nonneg_left hb1q; positivity
      _ < (2 : ℚ) ^ ((log2 q.num.natAbs : Int) + 1) * (q.den : ℚ) := by
          apply mul_lt_mul_of_pos_right ha2q hdenq
  have hlower : (2 : ℚ) ^ ((log2 q.num.natAbs : Int) - log2 q.den - 1) ≤ |q| := by
    rw [habs, le_div_iff₀ hdenq]
    have hsplit : (2 : ℚ) ^ ((log2 q.num.natAbs : Int) - log2 q.den - 1)
        = (2 : ℚ) ^ (log2 q.num.natAbs : Int) / (2 : ℚ) ^ ((log2 q.den : Int) + 1) := by
      rw [← zpow_sub₀ (by norm_num)]; congr 1; ring
    have hpb2 : (0 : ℚ) < (2 : ℚ) ^ ((log2 q.den : Int) + 1) := by positivity
    rw [hsplit, div_mul_eq_mul_div, div_le_iff₀ hpb2]
    calc (2 : ℚ) ^ (log2 q.num.natAbs : Int) * (q.den : ℚ)
        ≤ (q.num.natAbs : ℚ) * (q.den : ℚ) := by
          apply mul_le_mul_of_nonneg_right ha1q hdenq.le
      _ ≤ (q.num.natAbs : ℚ) * (2 : ℚ) ^ ((log2 q.den : Int) + 1) := by
          apply mul_le_mul_of_nonneg_left hb2q.le; positivity
  unfold exponent
  split
  · next h =>
    rw [pow2_eq] at h
    exact ⟨h, hupper⟩
  · next h =>
    rw [pow2_eq] at h
    refine ⟨hlower, ?_⟩
    rw [sub_add_cancel]
    exact not_le.mp h

/-- A finite result of the rounding is a multiple of the unit in the last place and differs
from the exact value by half a unit at most: it is a nearest number of the format. -/
theorem Format.round_fin_near (f : Format) (q r : ℚ) (hr : f.round q = FP.fin r) :
    (∃ k : Int, r = (k : ℚ) * (2 : ℚ) ^ f.ulpExp q) ∧
      |r - q| ≤ (2 : ℚ) ^ f.ulpExp q / 2 := by
  by_cases hq : q = 0
  · subst hq
    have h0 : f.round 0 = FP.fin 0 := by simp [Format.round]
    rw [h0] at hr
    have hr0 : r = 0 := (FP.fin.inj hr).symm
    subst hr0
    refine ⟨⟨0, by simp⟩, ?_⟩
    simp only [sub_zero, abs_zero]
    positivity
  · unfold Format.round at hr
    rw [if_neg hq] at hr
    split at hr
    · exact absurd hr (by simp)
    · have hr2 : (roundTiesEven (q / pow2 (f.ulpExp q)) : ℚ) * pow2 (f.ulpExp q) = r :=
        FP.fin.inj hr
      rw [pow2_eq] at hr2
      have hpos : (0 : ℚ) < (2 : ℚ) ^ f.ulpExp q := by positivity
      refine ⟨⟨roundTiesEven (q / (2 : ℚ) ^ f.ulpExp q), hr2.symm⟩, ?_⟩
      have hnear := roundTiesEven_abs_sub_le (q / (2 : ℚ) ^ f.ulpExp q)
      have hfac : r - q = ((roundTiesEven (q / (2 : ℚ) ^ f.ulpExp q) : ℚ)
          - q / (2 : ℚ) ^ f.ulpExp q) * (2 : ℚ) ^ f.ulpExp q := by
        rw [← hr2]
        field_simp
      rw [hfac, abs_mul, abs_of_pos hpos]
      calc |(roundTiesEven (q / (2 : ℚ) ^ f.ulpExp q) : ℚ) - q / (2 : ℚ) ^ f.ulpExp q|
            * (2 : ℚ) ^ f.ulpExp q
          ≤ 1 / 2 * (2 : ℚ) ^ f.ulpExp q := mul_le_mul_of_nonneg_right hnear hpos.le
        _ = (2 : ℚ) ^ f.ulpExp q / 2 := by ring

/-- A multiple of the unit in the last place below the overflow threshold rounds to itself. -/
theorem Format.round_of_multiple (f : Format) (q : ℚ) (k : Int)
    (hk : q = (k : ℚ) * (2 : ℚ) ^ f.ulpExp q) (hmax : |q| < (2 : ℚ) ^ (f.emax + 1)) :
    f.round q = FP.fin q := by
  by_cases hq : q = 0
  · subst hq
    simp [Format.round]
  · have hpos : (0 : ℚ) < (2 : ℚ) ^ f.ulpExp q := by positivity
    have hdiv : q / pow2 (f.ulpExp q) = (k : ℚ) := by
      rw [pow2_eq]
      rw [eq_comm, eq_div_iff hpos.ne']
      exact hk.symm
    have hval : (roundTiesEven (q / pow2 (f.ulpExp q)) : ℚ) * pow2 (f.ulpExp q) = q := by
      rw [hdiv, roundTiesEven_intCast, pow2_eq]
      exact hk.symm
    unfold Format.round
    rw [if_neg hq, hval, if_neg]
    rw [pow2_eq]
    exact not_le.mpr hmax

end FloatModel

section Float

/-! ### `GLfloat` arithmetic -/

theorem IEEE.not_pos_of_le_zero (P : GLfloat) (hP : P ≤ 0) : ¬ P > 0 := by
  intro hpos
  have hle : FP.le P.val (FP.fin 0) = true := hP
  have hlt : FP.lt (FP.fin 0) P.val = true := hpos
  cases hval : P.val with
  | fin p =>
    rw [hval] at hle hlt
    simp only [FP.le, FP.lt, decide_eq_true_eq] at hle hlt
    exact absurd hlt (not_lt.mpr hle)
  | inf s =>
    rw [hval] at hle hlt
    simp only [FP.le, FP.lt] at hle hlt
    rw [hle] at hlt
    exact absurd hlt (by decide)
  | nan =>
    rw [hval] at hle
    simp [FP.le] at hle

theorem IEEE.pos_of_fin_pos (p : ℚ) (hp : 0 < p) : ({ val := FP.fin p } : GLfloat) > 0 := by
  show FP.lt (FP.fin 0) (FP.fin p) = true
  simp [FP.lt, hp]

theorem IEEE.natCast_360 : ((360 : Nat) : GLfloat) = { val := FP.fin 360 } := by decide!

theorem IEEE.div_fin (a b : ℚ) (hb : b ≠ 0) :
    ({ val := FP.fin a } : GLfloat) / { val := FP.fin b } = IEEE.ofRat binary32 (a / b) := by
  show ({ val := FP.div binary32 (FP.fin a) (FP.fin b) } : GLfloat) = _
  simp [FP.div, hb, IEEE.ofRat]

theorem IEEE.add_fin (a b : ℚ) :
    ({ val := FP.fin a } : GLfloat) + { val := FP.fin b } = IEEE.ofRat binary32 (a + b) := rfl

theorem IEEE.mul_fin (a b : ℚ) :
    ({ val := FP.fin a } : GLfloat) * { val := FP.fin b } = IEEE.ofRat binary32 (a * b) := rfl

theorem IEEE.intCast_eq (T : Int) : ((T : Int) : GLfloat) = IEEE.ofRat binary32 T := rfl

theorem IEEE.ofRat_of_round (q : ℚ) (hq : binary32.round q = FP.fin q) :
    IEEE.ofRat binary32 q = { val := FP.fin q } := by
  simp [IEEE.ofRat, hq]

/-! ### The constructor -/

/-- C1, as amended: a body built by the constructor of `Star`, `Planet` or `LightPlanet` with
period argument `P` stores, when `P > 0`, the `GLfloat` quotient `360.0f / P`, which for a
finite `P` is `360 / P` rounded to the nearest `GLfloat` and is `360 / P` itself when that is a
`GLfloat`; it stores `0` when `P ≤ 0`; its orbital angle and self-rotation angle start at
`0`. -/
theorem ctor_speed_rounded (radius distance P selfSpeed : GLfloat) (parent : Option Addr)
    (rgb : Fin 3 → GLfloat) (s : Star GLfloat)
    (hs : s = Star.ctor radius distance P selfSpeed parent ∨
          s = Planet.ctor radius distance P selfSpeed parent rgb ∨
          s = LightPlanet.ctor radius distance P selfSpeed parent rgb) :
    (P > 0 → s.speed = ((360 : Nat) : GLfloat) / P) ∧
    (∀ p : ℚ, P = { val := FP.fin p } → 0 < p →
      s.speed = { val := binary32.round (360 / p) }) ∧
    (∀ p : ℚ, P = { val := FP.fin p } → 0 < p → binary32.round (360 / p) = FP.fin (360 / p) →
      s.speed = { val := FP.fin (360 / p) }) ∧
    (P ≤ 0 → s.speed = 0) ∧ s.alpha = 0 ∧ s.alphaSelf = 0 := by
  have hspeed : s.speed = if P > 0 then ((360 : Nat) : GLfloat) / P else 0 := by
    rcases hs with rfl | rfl | rfl <;> rfl
  have hangles : s.alpha = 0 ∧ s.alphaSelf = 0 := by
    rcases hs with rfl | rfl | rfl <;> exact ⟨rfl, rfl⟩
  have hfin : ∀ p : ℚ, P = { val := FP.fin p } → 0 < p →
      s.speed = { val := binary32.round (360 / p) } := by
    intro p hP hp
    rw [hspeed, hP, if_pos (IEEE.pos_of_fin_pos p hp), IEEE.natCast_360,
      IEEE.div_fin 360 p hp.ne']
    rfl
  refine ⟨fun hP => ?_, hfin, fun p hP hp hexact => ?_, fun hP => ?_, hangles⟩
  · rw [hspeed, if_pos hP]
  · rw [hfin p hP hp, hexact]
  · rw [hspeed, if_neg (IEEE.not_pos_of_le_zero P hP)]

/-- C1 as amended, at the body of the scenario: period 36 gives angular speed 10. -/
theorem ctor_speed_rounded_witness :
    scenarioBody32.speed = { val := FP.fin 10 } ∧
    scenarioBody32.alpha = 0 ∧ scenarioBody32.alphaSelf = 0 := by
  have h := ctor_speed_rounded (f32 1) (f32 10) (f32 36) (f32 5) none (fun _ => 1)
    scenarioBody32 (Or.inl rfl)
  refine ⟨?_, h.2.2.2.2.1, h.2.2.2.2.2⟩
  rw [h.2.2.1 36 (by decide!) (by norm_num) (by decide!)]
  norm_num

/-- C1 as stated fails: for the period 7 the constructor stores the `GLfloat`
`13481691 / 262144`, which is not `360 / 7`. -/
theorem ctor_speed_not_exact :
    f32 7 > 0 ∧ f32 7 = { val := FP.fin 7 } ∧
    period7Body.speed = { val := FP.fin (13481691 / 262144) } ∧
    (13481691 / 262144 : ℚ) ≠ 360 / 7 ∧
    period7Body.speed ≠ { val := FP.fin (360 / 7) } := by
  refine ⟨by decide!, by decide!, by decide!, by norm_num, by decide!⟩

/-! ### `update` in `GLfloat` -/

theorem Star.update_iterate_alpha_exact (s : Star GLfloat) (T : Int) (a v : ℚ) (N : Nat)
    (ha : s.alpha = { val := FP.fin a }) (hv : s.speed = { val := FP.fin v })
    (hT : binary32.round T = FP.fin T) (hTv : binary32.round (T * v) = FP.fin (T * v))
    (hsum : ∀ k : Nat, k < N →
      binary32.round (a + (k + 1) * T * v) = FP.fin (a + (k + 1) * T * v)) :
    ((fun b : Star GLfloat => b.update T)^[N] s).alpha = { val := FP.fin (a + N * T * v) } := by
  induction N with
  | zero => simpa using ha
  | succ n ih =>
    have hprev := ih fun k hk => hsum k (Nat.lt_succ_of_lt hk)
    have hstep : ((fun b : Star GLfloat => b.update T)^[n + 1] s).alpha
        = ((fun b : Star GLfloat => b.update T)^[n] s).alpha
          + ((T : Int) : GLfloat) * ((fun b : Star GLfloat => b.update T)^[n] s).speed := by
      rw [Function.iterate_succ_apply']
      rfl
    rw [hstep, hprev, Star.update_iterate_speed, hv, IEEE.intCast_eq,
      IEEE.ofRat_of_round _ hT, IEEE.mul_fin, IEEE.ofRat_of_round _ hTv, IEEE.add_fin]
    have hq : a + (n : ℚ) * T * v + T * v = a + ((n : ℚ) + 1) * T * v := by ring
    rw [hq, IEEE.ofRat_of_round _ (hsum n (Nat.lt_succ_self n))]
    simp

/-- C2, as amended: one call `update(T)` replaces the orbital angle by the `GLfloat` sum of the
angle and the `GLfloat` product of `T`, converted to `GLfloat`, and the angular speed, which it
leaves as it is; nothing wraps the angle around or clamps it.  After `N` consecutive calls the
angle is its value before the calls plus `N * T * speed` whenever none of these operations
rounds, and always in exact arithmetic.  In the scenario one `update(1)` gives angular speed 10
and orbital angle 10, and 37 calls give the angle 370, above 360. -/
theorem update_alpha_rounded :
    (∀ (h : Heap GLfloat) (this : Addr) (T : Int),
      (h.update this T this).alpha = (h this).alpha + ((T : Int) : GLfloat) * (h this).speed ∧
      (h.update this T this).speed = (h this).speed) ∧
    (∀ (s : Star GLfloat) (T : Int) (a v : ℚ) (N : Nat),
      s.alpha = { val := FP.fin a } → s.speed = { val := FP.fin v } →
      binary32.round T = FP.fin T → binary32.round (T * v) = FP.fin (T * v) →
      (∀ k : Nat, k < N →
        binary32.round (a + (k + 1) * T * v) = FP.fin (a + (k + 1) * T * v)) →
      ((fun b : Star GLfloat => b.update T)^[N] s).alpha
        = { val := FP.fin (a + N * T * v) }) ∧
    (∀ (K : Type) [LinearOrderedField K] (s : Star K) (N : Nat) (T : Int),
      ((fun b : Star K => b.update T)^[N] s).alpha = s.alpha + (N : K) * (T : K) * s.speed) ∧
    ((scenarioBody32.update 1).speed = { val := FP.fin 10 } ∧
      (scenarioBody32.update 1).alpha = { val := FP.fin 10 }) ∧
    ((fun b : Star GLfloat => b.update 1)^[37] scenarioBody32).alpha
      = { val := FP.fin 370 } := by
  refine ⟨fun h this T => ?_, fun s T a v N ha hv hT hTv hsum =>
    Star.update_iterate_alpha_exact s T a v N ha hv hT hTv hsum,
    fun K _ s N T => Star.update_iterate_alpha T N s, ⟨by decide!, by decide!⟩, by decide!⟩
  simp [Heap.update, Star.update]

/-- C2 as stated fails.  With the period 7 three calls `update(1)` take the orbital angle from
0 to `2527817 / 16384`, which is not three times the stored angular speed.  At the orbital
angle `2 ^ 24` and the angular speed 1 (period 360, after `update(16777216)`) two calls
`update(1)` leave the angle where it is. -/
theorem update_alpha_not_linear :
    (period7Body.alpha = { val := FP.fin 0 } ∧
      period7Body.speed = { val := FP.fin (13481691 / 262144) } ∧
      ((fun b : Star GLfloat => b.update 1)^[3] period7Body).alpha
        = { val := FP.fin (2527817 / 16384) } ∧
      (2527817 / 16384 : ℚ) ≠ 0 + 3 * 1 * (13481691 / 262144)) ∧
    ((period360Body.update 16777216).alpha = { val := FP.fin 16777216 } ∧
      (period360Body.update 16777216).speed = { val := FP.fin 1 } ∧
      ((fun b : Star GLfloat => b.update 1)^[2] (period360Body.update 16777216)).alpha
        = { val := FP.fin 16777216 } ∧
      (16777216 : ℚ) ≠ 16777216 + 2 * 1 * 1 ∧
      ((fun b : Star GLfloat => b.update 1)^[2] (period360Body.update 16777216)).alpha
        ≠ (period360Body.update 16777216).alpha
          + ((2 : Nat) : GLfloat) * ((1 : Int) : GLfloat)
            * (period360Body.update 16777216).speed) := by
  refine ⟨⟨by decide!, by decide!, by decide!, by norm_num⟩,
    ⟨by decide!, by decide!, by decide!, by norm_num, by decide!⟩⟩

/-- C4 at a parent at a negative distance: the parent of `moon` in `backwardHeap` is at the
distance -10, which is not 0, and `drawStar` emits the orbit path right after `glPushMatrix`,
with no rotation by the angle of the parent and no translation by its distance; the parent
itself is placed by a translation by -10.  With the parent at the distance 10 (`forwardHeap`)
the rotation by its angle 10 and the translation by 10 are emitted. -/
theorem drawStar_parent_negative_distance :
    (∀ m : CMath GLdouble, moon.drawStar m forwardHeap =
      [GLCmd.glEnable GLenum.GL_LINE_SMOOTH, GLCmd.glEnable GLenum.GL_BLEND, GLCmd.glPushMatrix,
        GLCmd.glRotatef { val := FP.fin 10 } 0 0 1, GLCmd.glTranslatef { val := FP.fin 10 } 0 0]
        ++ moon.orbitPath m ++ moon.placeSphere ++ [GLCmd.glPopMatrix]) ∧
    moon.parentStar = some 0 ∧
    (backwardHeap 0).distance = { val := FP.fin (-10) } ∧
    (backwardHeap 0).distance ≠ 0 ∧
    (∀ m : CMath GLdouble, moon.drawStar m backwardHeap =
      [GLCmd.glEnable GLenum.GL_LINE_SMOOTH, GLCmd.glEnable GLenum.GL_BLEND, GLCmd.glPushMatrix]
        ++ moon.orbitPath m ++ moon.placeSphere ++ [GLCmd.glPopMatrix]) ∧
    (¬ ∃ (m : CMath GLdouble) (rest : List (GLCmd GLfloat)), moon.drawStar m backwardHeap =
      [GLCmd.glEnable GLenum.GL_LINE_SMOOTH, GLCmd.glEnable GLenum.GL_BLEND, GLCmd.glPushMatrix,
        GLCmd.glRotatef (backwardHeap 0).alpha 0 0 1,
        GLCmd.glTranslatef (backwardHeap 0).distance 0 0] ++ rest) ∧
    (backwardHeap 0).placeSphere[1]? = some (GLCmd.glTranslatef { val := FP.fin (-10) } 0 0) := by
  have hdist : (backwardHeap 0).distance = { val := FP.fin (-10) } := by decide!
  have hoff : moon.parentOffset backwardHeap = [] :=
    parentOffset_none backwardHeap moon (Or.inr ⟨0, rfl, by rw [hdist]; decide⟩)
  have hdraw : ∀ m : CMath GLdouble, moon.drawStar m backwardHeap =
      [GLCmd.glEnable GLenum.GL_LINE_SMOOTH, GLCmd.glEnable GLenum.GL_BLEND, GLCmd.glPushMatrix]
        ++ moon.orbitPath m ++ moon.placeSphere ++ [GLCmd.glPopMatrix] := by
    intro m
    simp [Star.drawStar, hoff]
  have hfdist : (forwardHeap 0).distance = { val := FP.fin 10 } := by decide!
  have hfalpha : (forwardHeap 0).alpha = { val := FP.fin 10 } := by decide!
  refine ⟨fun m => ?_, rfl, hdist, by rw [hdist]; decide, hdraw, ?_, ?_⟩
  · have hpos : (forwardHeap 0).distance > 0 := by rw [hfdist]; decide
    rw [(drawStar_parent_offset m forwardHeap moon 0 { current := [], saved := [], drawn := [] }
      rfl hpos).1, hfdist, hfalpha]
  · rintro ⟨m, rest, hrest⟩
    rw [hdraw m] at hrest
    simp [Star.orbitPath] at hrest
  · simp only [Star.placeSphere, hdist]
    rfl

/-- In `GLfloat` as in exact arithmetic: for a body with no parent, or with a parent at
distance 0, `drawStar` emits the orbit path right after `glPushMatrix` and the vertices of the
orbit are drawn under the matrix in force at the call. -/
theorem drawStar_no_parent_offset_float (m : CMath GLdouble) (h : Heap GLfloat)
    (s : Star GLfloat) (st : GLState GLfloat)
    (hs : s.parentStar = none ∨ ∃ p, s.parentStar = some p ∧ (h p).distance = 0) :
    s.drawStar m h =
      [GLCmd.glEnable GLenum.GL_LINE_SMOOTH, GLCmd.glEnable GLenum.GL_BLEND, GLCmd.glPushMatrix]
        ++ s.orbitPath m ++ s.placeSphere ++ [GLCmd.glPopMatrix] ∧
    (st.run (s.drawStar m h)).drawn =
      st.drawn ++ (s.orbitVertices m 1440).map (fun c => (st.current, c))
        ++ [(st.current ++ [TOp.rotate s.alpha 0 0 1, TOp.translate s.distance 0 0,
              TOp.rotate s.alphaSelf 0 0 1], GLCmd.glutSolidSphere s.radius 40 32)] := by
  have hoff : s.parentOffset h = [] := by
    apply parentOffset_none
    rcases hs with hp | ⟨p, hp, hd⟩
    · exact Or.inl hp
    · exact Or.inr ⟨p, hp, by rw [hd]; decide⟩
  constructor
  · simp [Star.drawStar, hoff]
  · rw [GLState.run_drawStar, hoff]
    simp [toOps]

/-- In `GLfloat` as in exact arithmetic: after the orbit path `drawStar` emits the rotation by
the orbital angle, the translation by `(distance, 0, 0)`, the rotation by the self-rotation
angle, `glColor3f`, the solid sphere and `glPopMatrix`, with the stored values as they are. -/
theorem drawStar_sphere_placement_float (m : CMath GLdouble) (h : Heap GLfloat)
    (s : Star GLfloat) :
    s.drawStar m h =
      [GLCmd.glEnable GLenum.GL_LINE_SMOOTH, GLCmd.glEnable GLenum.GL_BLEND, GLCmd.glPushMatrix]
        ++ s.parentOffset h ++ s.orbitPath m
        ++ [GLCmd.glRotated s.alpha 0 0 1,
            GLCmd.glTranslatef s.distance 0 0,
            GLCmd.glRotatef s.alphaSelf 0 0 1,
            GLCmd.glColor3f (s.rgbaColor 0) (s.rgbaColor 1) (s.rgbaColor 2),
            GLCmd.glutSolidSphere s.radius 40 32]
        ++ [GLCmd.glPopMatrix] := rfl

/-! ### The orbit path in `GLfloat` -/

end Float

end SolarSystem
